import Mathlib

/-!
Shallow embedding of `src/bot.py` (GitPyHosting): a Telegram bot that hosts
uploaded Python scripts and cloned repositories as background processes.
We model the ownership registry, the environment-overlay builder, the
process supervisor (`execute_logic`, the stop branch of `manage_callback`,
the Flask `/status` check), the requirements normalizer
(`smart_fix_requirements` / `install_requirements`) and the relevant
workflow handlers (`receive_py`, `receive_extra_files`,
`deploy_render_receive`, `select_git_file`).

Python strings are modelled as Lean `String`s; Python string primitives
(`strip`, `split`, `replace`, `lower`, `startswith`, `endswith`,
`urllib.parse.quote_plus`) are re-implemented below over `List Char`.
The file system and the process table are association lists; the external
child process is a parameter (did it exit inside the grace window, and what
did it write to its log).
-/

namespace GitPyHosting

/-! ### Python string primitives -/

/-- Whitespace characters recognised by Python's `str.strip()` / `str.split()`. -/
def pyIsSpace (c : Char) : Bool :=
  c = ' ' || c = '\t' || c = '\n' || c = '\r' || c = '\x0b' || c = '\x0c'

/-- Remove leading Python whitespace. -/
def stripL (l : List Char) : List Char := l.dropWhile pyIsSpace

/-- Python `str.strip()` on a char list: drop leading and trailing whitespace. -/
def pyStripList (l : List Char) : List Char := (stripL (stripL l.reverse).reverse)

/-- Python `str.strip()`. -/
def pyStrip (s : String) : String := String.mk (pyStripList s.data)

/-- Python `str.lower()` (ASCII is all we need). -/
def lowerL (l : List Char) : List Char := l.map Char.toLower

/-- Python `s.startswith(p)` on char lists. -/
def startsWithL (p l : List Char) : Bool := List.isPrefixOf p l

/-- Python `s.endswith(p)`. -/
def endsWithStr (s p : String) : Bool := List.isPrefixOf p.data.reverse s.data.reverse

/-- Python `s.split(sep, 1)`: `none` when `sep` does not occur, otherwise the
pieces before and after the first occurrence. -/
def splitFirstAux (sep : Char) : List Char → Option (List Char × List Char)
  | [] => none
  | c :: cs =>
    if c = sep then some ([], cs)
    else match splitFirstAux sep cs with
      | none => none
      | some (a, b) => some (c :: a, b)

/-- Iterating over a file's lines (`for line in f` / `splitlines`): split on
newline characters. -/
def splitLinesAux (acc : List Char) : List Char → List String
  | [] => [String.mk acc.reverse]
  | c :: cs =>
    if c = '\n' then String.mk acc.reverse :: splitLinesAux [] cs
    else splitLinesAux (c :: acc) cs

/-- Split a string into its lines. -/
def splitLines (s : String) : List String := splitLinesAux [] s.data

/-- Python `str.split()` with no argument: maximal runs of non-whitespace. -/
def pySplitWsAux (cur : List Char) : List Char → List String
  | [] => if cur.isEmpty then [] else [String.mk cur.reverse]
  | c :: cs =>
    if pyIsSpace c then
      if cur.isEmpty then pySplitWsAux [] cs
      else String.mk cur.reverse :: pySplitWsAux [] cs
    else pySplitWsAux (c :: cur) cs

/-- Python `str.split()` with no argument. -/
def pySplitWs (s : String) : List String := pySplitWsAux [] s.data

/-- Python `'\n'.join(xs)`. -/
def joinNl : List String → String
  | [] => ""
  | [x] => x
  | x :: xs => x ++ "\n" ++ joinNl xs

/-- Python `s[-n:]` for `n > 0`: the last `n` characters. -/
def lastChars (n : Nat) (s : String) : String :=
  String.mk (s.data.reverse.take n).reverse

/-- Python `s.replace(".git", "")`: remove every (left-to-right,
non-overlapping) occurrence of `".git"`. -/
def dropGitAll : List Char → List Char
  | '.' :: 'g' :: 'i' :: 't' :: cs => dropGitAll cs
  | c :: cs => c :: dropGitAll cs
  | [] => []

/-- Python `s.replace('|', '_')` (used for log-file names). -/
def barToUnderscore (s : String) : String :=
  String.mk (s.data.map fun c => if c = '|' then '_' else c)

/-- Characters `urllib.parse.quote_plus` leaves unescaped. -/
def quoteSafe (c : Char) : Bool :=
  c.isAlphanum || c = '_' || c = '.' || c = '-' || c = '~'

/-- Upper-case hex digit of a value below 16. -/
def hexDigit (n : Nat) : Char :=
  if n < 10 then Char.ofNat ('0'.toNat + n) else Char.ofNat ('A'.toNat + (n - 10))

/-- Model of `urllib.parse.quote_plus` on one ASCII character. -/
def quotePlusChar (c : Char) : List Char :=
  if quoteSafe c then [c]
  else if c = ' ' then ['+']
  else ['%', hexDigit (c.toNat / 16), hexDigit (c.toNat % 16)]

/-- Model of `urllib.parse.quote_plus` (for the ASCII inputs this program builds). -/
def quote_plus (s : String) : String :=
  String.mk (s.data.flatMap quotePlusChar)

/-! ### Association lists: the file system, registry and process table -/

/-- Look a key up in an association list (first match). -/
def lookupKV {α : Type} : List (String × α) → String → Option α
  | [], _ => none
  | p :: ps, k => if p.1 = k then some p.2 else lookupKV ps k

/-- Python `dict` assignment `d[k] = v`: replace the first binding of `k`,
or append a new one. -/
def setKV {α : Type} : List (String × α) → String → α → List (String × α)
  | [], k, v => [(k, v)]
  | p :: ps, k, v => if p.1 = k then (k, v) :: ps else p :: setKV ps k v

/-- The host file system: path ↦ content. A missing path reads as `none`. -/
structure FS where
  files : List (String × String)
deriving DecidableEq

/-- Read a file's content (`open(p).read()`), `none` when absent. -/
def readFile (fs : FS) (p : String) : Option String := lookupKV fs.files p

/-- Write a file (`open(p, 'w')` followed by writing `c`). -/
def writeFile (fs : FS) (p c : String) : FS := ⟨setKV fs.files p c⟩

/-! ### Environment overlay (`execute_logic`, the `custom_env` block) -/

/-- One iteration of the overlay loop in `execute_logic`:
`line = line.strip()`; skip if blank, starts with `#`, or has no `=`;
otherwise `k, v = line.split("=", 1); custom_env[k.strip()] = v.strip()`. -/
def applyEnvLine (env : List (String × String)) (line : String) : List (String × String) :=
  match (pyStrip line).data with
  | [] => env
  | c :: cs =>
    if c = '#' then env
    else match splitFirstAux '=' (c :: cs) with
      | none => env
      | some (k, v) =>
        setKV env (String.mk (pyStripList k)) (String.mk (pyStripList v))

/-- Model of `custom_env = os.environ.copy()` then, when the overlay file exists,
fold the overlay loop over its lines. -/
def buildEnv (osEnv : List (String × String)) (overlay : Option String) :
    List (String × String) :=
  match overlay with
  | none => osEnv
  | some content => (splitLines content).foldl applyEnvLine osEnv

/-! ### Requirements normalisation (`smart_fix_requirements` / `install_requirements`) -/

/-- What one manifest line contributes to the `clean` list:
`line = line.strip()`; a blank line contributes nothing; a line whose
lower-casing starts with `"pip install"` contributes
`line[11:].strip().split()`; any other line contributes itself. -/
def fixLine (line : String) : List String :=
  let l := pyStripList line.data
  if l.isEmpty then []
  else if startsWithL "pip install".data (lowerL l) then
    pySplitWs (String.mk (pyStripList (l.drop 11)))
  else [String.mk l]

/-- The accumulation loop of `smart_fix_requirements` over the file's lines. -/
def smartFixLines (lines : List String) : List String :=
  lines.foldl (fun clean line => clean ++ fixLine line) []

/-- Model of `smart_fix_requirements(req_path)`: read the manifest, normalise its
lines, write the result back joined by newlines, return `True`; any failure
(modelled: the file cannot be read) is swallowed by the bare `except` and
returns `False` with nothing written. -/
def smart_fix_requirements (fs : FS) (req_path : String) : Bool × FS :=
  match readFile fs req_path with
  | none => (false, fs)
  | some content =>
    (true, writeFile fs req_path (joinNl (smartFixLines (splitLines content))))

/-- Model of `install_requirements(req_path, update)`: run `smart_fix_requirements`
(its Boolean result is discarded), then invoke `pip install -r req_path`.
We return the file system after normalisation together with the manifest
content the installer reads. -/
def install_requirements (fs : FS) (req_path : String) : FS × Option String :=
  let fs' := (smart_fix_requirements fs req_path).2
  (fs', readFile fs' req_path)

/-! ### Ownership registry -/

/-- A row of `ownership.json`: `{"owner": user_id, "type": type_}`. -/
structure OwnRecord where
  owner : Nat
  type_ : String
deriving DecidableEq

/-- The durable ownership table, target id ↦ record. -/
abbrev Reg : Type := List (String × OwnRecord)

/-- Model of `save_ownership(target_id, user_id, type_)`: unconditional
read-modify-write of the table. -/
def save_ownership (reg : Reg) (target_id : String) (user_id : Nat) (type_ : String) : Reg :=
  setKV reg target_id ⟨user_id, type_⟩

/-- Model of `get_owner(target_id)`. -/
def get_owner (reg : Reg) (target_id : String) : Option Nat :=
  (lookupKV reg target_id).map OwnRecord.owner

/-- Python truthiness of the `owner` value in `receive_py`'s guard
(`... and owner and ...`): `None` and `0` are falsy. -/
def ownerTruthy : Option Nat → Bool
  | none => false
  | some n => n != 0

/-! ### Workflow handlers -/

/-- Messages the modelled handlers send (the Python texts, tagged). -/
inductive BotMsg
  | onlyPyAllowed        -- "❌ Only .py allowed"
  | takenByOther         -- "❌ Taken! `fname` is owned by another user."
  | savedAddExtras       -- "✅ Saved. Add extras (optional)?"
  | installing           -- "⏳ Installing requirements..."
  | envSaved             -- "✅ Env saved."
  | nextPrompt           -- "Next?"
  | invalidUrl           -- "❌ Invalid URL."
  | deployLink (url : String)  -- "✅ Render Deploy Link: ..."
deriving DecidableEq

/-- Is a message one of the inline validation errors? -/
def isValidationMsg : BotMsg → Bool
  | .onlyPyAllowed => true
  | .invalidUrl => true
  | _ => false

/-- Conversation state of the upload flow (`WAIT_PY` / `WAIT_EXTRAS` /
`ConversationHandler.END`). -/
inductive UpState
  | waitPy
  | waitExtras
  | ended
deriving DecidableEq

/-- The pending one-shot sub-wait marker `context.user_data['wait']`. -/
inductive WaitKind
  | req
  | env
deriving DecidableEq

/-- Result of `receive_py`. -/
structure ReceivePyRes where
  next : UpState
  reg : Reg
  fs : FS
  msgs : List BotMsg
deriving DecidableEq

/-- Model of `receive_py(update, context)`: reject a non-`.py` name; reject when the
file already exists on disk AND has a (truthy) owner other than the caller
AND the caller is not the administrator; otherwise save the artifact under
`scripts/` and claim ownership. `fileOnDisk` is
`os.path.exists(os.path.join(UPLOAD_DIR, fname))`; `bytes` the uploaded
content. -/
def receive_py (reg : Reg) (fs : FS) (fileOnDisk : Bool) (fname : String)
    (bytes : String) (uid admin : Nat) : ReceivePyRes :=
  if !endsWithStr fname ".py" then
    ⟨.waitPy, reg, fs, [.onlyPyAllowed]⟩
  else
    let owner := get_owner reg fname
    if fileOnDisk && ownerTruthy owner && (owner != some uid) && (uid != admin) then
      ⟨.waitPy, reg, fs, [.takenByOther]⟩
    else
      ⟨.waitExtras, save_ownership reg fname uid "file",
        writeFile fs ("scripts/" ++ fname) bytes, [.savedAddExtras]⟩

/-- Model of `select_git_file(update, context)`: compose `repo_name|filename` and call
`save_ownership` — there is no ownership check in this handler. Returns the
composite id and the new registry. -/
def select_git_file (reg : Reg) (repo_name filename : String) (uid : Nat) :
    String × Reg :=
  let unique_id := repo_name ++ "|" ++ filename
  (unique_id, save_ownership reg unique_id uid "repo")

/-- Result of `receive_extra_files`. -/
structure ExtraFilesRes where
  next : UpState
  wait : Option WaitKind
  fs : FS
  msgs : List BotMsg
deriving DecidableEq

/-- The name stem used for per-target extra files:
`target_id if type_ == 'file' else target_id.split("|")[0]`. -/
def extraStem (type_ target_id : String) : String :=
  if type_ = "file" then target_id
  else match splitFirstAux '|' target_id.data with
    | some (a, _) => String.mk a
    | none => target_id

/-- Model of `receive_extra_files(update, context)`: with no pending marker, return at
once; with marker `req` and a `.txt` upload, save `<stem>_req.txt` and run the
installer; with marker `env` and a `.env` upload, save the env file; any other
upload falls through both branches. In every non-early-return case the marker
is set to `None` and only "Next?" (plus any save/install messages) is sent. -/
def receive_extra_files (wait : Option WaitKind) (type_ target_id work_dir : String)
    (fs : FS) (fname bytes : String) : ExtraFilesRes :=
  match wait with
  | none => ⟨.waitExtras, none, fs, []⟩
  | some w =>
    let stem := extraStem type_ target_id
    if w = .req && endsWithStr fname ".txt" then
      let path := work_dir ++ "/" ++ stem ++ "_req.txt"
      let fs1 := writeFile fs path bytes
      let fs2 := (install_requirements fs1 path).1
      ⟨.waitExtras, none, fs2, [.installing, .nextPrompt]⟩
    else if w = .env && endsWithStr fname ".env" then
      let path := if type_ = "file" then work_dir ++ "/" ++ target_id ++ ".env"
                  else work_dir ++ "/.env"
      ⟨.waitExtras, none, writeFile fs path bytes, [.envSaved, .nextPrompt]⟩
    else
      ⟨.waitExtras, none, fs, [.nextPrompt]⟩

/-- Model of `deploy_render_receive(update, context)`: `raw = text.strip()`; if it
does not start with `"http"`, send "Invalid URL" and stay in
`WAIT_DEPLOY_REPO` (`none`); otherwise
`repo = raw.replace(".git", "").strip()` and the link is
`f"https://render.com/deploy?repo={quote_plus(repo)}"` (conversation ends). -/
def deploy_render_receive (text : String) : Option String :=
  let raw := pyStrip text
  if startsWithL "http".data raw.data then
    let repo := pyStrip (String.mk (dropGitAll raw.data))
    some ("https://render.com/deploy?repo=" ++ quote_plus repo)
  else
    none

/-! ### Process supervisor (`execute_logic`, stop branch, `/status`) -/

/-- A row of `running_processes`: the `Popen` handle (abstracted to whether
`poll()` reports an exit at the end of the modelled call) and the log path. -/
structure ProcEntry where
  exited : Bool
  log : String
deriving DecidableEq

/-- The live-process table `running_processes`. -/
abbrev ProcTable : Type := List (String × ProcEntry)

/-- The guard `tid in running_processes and running_processes[tid]['process'].poll() is None`:
the guard used by `/status`, `execute_logic` and the stop branch. -/
def aliveIn (st : ProcTable) (tid : String) : Bool :=
  match lookupKV st tid with
  | some e => !e.exited
  | none => false

/-- The Flask `/status` endpoint: running iff a table entry exists whose
handle has not exited. -/
def script_status (st : ProcTable) (tid : String) : Bool := aliveIn st tid

/-- The constant `UPLOAD_DIR`. -/
def UPLOAD_DIR : String := "scripts"

/-- The `(work_dir, script_path, env_path)` resolution at the top of
`execute_logic`. -/
def resolvePaths (target_id : String) : String × String × String :=
  match splitFirstAux '|' target_id.data with
  | some (repo, file_rel) =>
    let work_dir := UPLOAD_DIR ++ "/" ++ String.mk repo
    (work_dir, String.mk file_rel, work_dir ++ "/.env")
  | none =>
    (UPLOAD_DIR, target_id, UPLOAD_DIR ++ "/" ++ target_id ++ ".env")

/-- The per-target log path:
`os.path.join(UPLOAD_DIR, f"{target_id.replace('|','_')}.log")`. -/
def logPathOf (target_id : String) : String :=
  UPLOAD_DIR ++ "/" ++ barToUnderscore target_id ++ ".log"

/-- Outcome reported by `execute_logic`. -/
inductive StartRes
  | missingTarget
  | alreadyRunning
  | crashed (tail : String)
  | running (url : String)
deriving DecidableEq

/-- Full result of `execute_logic`: the reported outcome, the process table,
the file system, and the spawn (if any) as `(cwd, argv, env)`. -/
structure ExecResult where
  res : StartRes
  table : ProcTable
  fs : FS
  spawned : Option (String × List String × List (String × String))
deriving DecidableEq

/-- Model of `execute_logic(update, context)`.

Inputs beyond the shared state: `base_url` is `BASE_URL`; `target_id` is
`context.user_data.get('target_id', ... 'fallback_id')`; the child's
behaviour is a parameter — `childExits` is whether `proc.poll()` after the
`asyncio.sleep(2)` grace wait reports an exit, and `childOut` is what the
child wrote to its log by then (stdout and stderr combined, since
`stderr=subprocess.STDOUT`).

Faithful sequence: resolve paths; guard on a live entry (`AlreadyRunning`,
nothing changed); build the merged env from the overlay file; open the log
with mode `"w"` (truncation); spawn `["python", "-u", script_path]` in
`work_dir`; register the handle and log path in the table; grace-wait and
poll once — on exit, report `Crashed` with the last 2000 characters of the
log; otherwise report `Running` with the status URL. In neither case is the
table entry removed. -/
def execute_logic (base_url : String) (st : ProcTable) (fs : FS)
    (osEnv : List (String × String)) (target_id : Option String)
    (childExits : Bool) (childOut : String) : ExecResult :=
  match target_id with
  | none => ⟨.missingTarget, st, fs, none⟩
  | some tid =>
    let work_dir := (resolvePaths tid).1
    let script_path := (resolvePaths tid).2.1
    let env_path := (resolvePaths tid).2.2
    if aliveIn st tid then ⟨.alreadyRunning, st, fs, none⟩
    else
      let custom_env := buildEnv osEnv (readFile fs env_path)
      let logPath := logPathOf tid
      let fs1 := writeFile fs logPath ""          -- open(log, "w") truncates
      let fs2 := writeFile fs1 logPath childOut   -- the child's combined output
      let st1 := setKV st tid ⟨childExits, logPath⟩
      let spawn := some (work_dir, ["python", "-u", script_path], custom_env)
      if childExits then
        let tail := lastChars 2000 ((readFile fs2 logPath).getD "")
        ⟨.crashed tail, st1, fs2, spawn⟩
      else
        ⟨.running (base_url ++ "/status?script=" ++ tid), st1, fs2, spawn⟩

/-- Outcome of the `stop_` branch of `manage_callback`. -/
inductive StopRes
  | stopped
  | alreadyStopped
deriving DecidableEq

/-- The `stop_` branch of `manage_callback`: when a live entry exists, send
`SIGTERM` to the process group inside `try/except: pass` (delivery errors
ignored), then `process.wait()` — after which the handle's `poll()` reports
an exit — and reply "Stopped"; otherwise reply "Already stopped". The table
entry is never deleted. -/
def stop_logic (st : ProcTable) (tid : String) : StopRes × ProcTable :=
  if aliveIn st tid then
    match lookupKV st tid with
    | some e => (.stopped, setKV st tid ⟨true, e.log⟩)
    | none => (.alreadyStopped, st)
  else
    (.alreadyStopped, st)

/-! ### Helper lemmas -/

theorem lookupKV_setKV_self {α : Type} (m : List (String × α)) (k : String) (v : α) :
    lookupKV (setKV m k v) k = some v := by
  induction m with
  | nil => simp [setKV, lookupKV]
  | cons p ps ih =>
    by_cases h : p.1 = k
    · simp [setKV, h, lookupKV]
    · simp [setKV, h, lookupKV, ih]

theorem lookupKV_setKV_ne {α : Type} (m : List (String × α)) (k k' : String) (v : α)
    (h : k' ≠ k) : lookupKV (setKV m k v) k' = lookupKV m k' := by
  have h' : ¬ k = k' := fun hk => h hk.symm
  induction m with
  | nil => simp [setKV, lookupKV, h']
  | cons p ps ih =>
    by_cases hp : p.1 = k
    · simp [setKV, hp, lookupKV, h']
    · simp [setKV, hp, lookupKV, ih]

theorem setKV_self {α : Type} (m : List (String × α)) (k : String) (v : α)
    (h : lookupKV m k = some v) : setKV m k v = m := by
  induction m with
  | nil => simp [lookupKV] at h
  | cons p ps ih =>
    obtain ⟨pk, pv⟩ := p
    by_cases hp : pk = k
    · have hv : pv = v := by simpa [lookupKV, hp] using h
      subst hp
      subst hv
      simp [setKV]
    · have h' : lookupKV ps k = some v := by simpa [lookupKV, hp] using h
      simp [setKV, hp, ih h']

theorem splitFirstAux_of_append (sep : Char) (k v : List Char) (h : sep ∉ k) :
    splitFirstAux sep (k ++ sep :: v) = some (k, v) := by
  induction k with
  | nil => simp [splitFirstAux]
  | cons c cs ih =>
    have hc : ¬ c = sep := fun hcs => h (by simp [hcs])
    have hcs : sep ∉ cs := fun hm => h (by simp [hm])
    simp [splitFirstAux, hc, ih hcs]

theorem foldl_append_eq_flatten {β : Type} (f : β → List String) (l : List β)
    (acc : List String) :
    l.foldl (fun clean x => clean ++ f x) acc = acc ++ (l.map f).flatten := by
  induction l generalizing acc with
  | nil => simp
  | cons x xs ih => simp [List.foldl_cons, ih]

/-! ### Claim theorems -/

/-- C4: `buildEnv` starts from a copy of the host environment; an overlay
file is parsed line by line — blank lines and lines whose (stripped) first
character is `#` are skipped, a line without `=` is silently ignored, and
otherwise the first `=` splits the line into key and value, the overlay
value overriding any inherited value for the same key; base `{A:"1"}` with
overlay `"A=2\nB=3"` yields `{A:"2", B:"3"}`. The step is a total function
(it never raises to the caller). -/
theorem claim_C4_env_overlay_merge (base env : List (String × String)) (line : String)
    (k v : List Char) :
    (buildEnv base none = base) ∧
    ((pyStrip line).data = [] → applyEnvLine env line = env) ∧
    (∀ cs, (pyStrip line).data = '#' :: cs → applyEnvLine env line = env) ∧
    (splitFirstAux '=' (pyStrip line).data = none → applyEnvLine env line = env) ∧
    ((pyStrip line).data = k ++ '=' :: v → '=' ∉ k → (k ++ '=' :: v).head? ≠ some '#' →
        applyEnvLine env line =
          setKV env (String.mk (pyStripList k)) (String.mk (pyStripList v)) ∧
        lookupKV (applyEnvLine env line) (String.mk (pyStripList k)) =
          some (String.mk (pyStripList v))) ∧
    (buildEnv [("A", "1")] (some "A=2\nB=3") = [("A", "2"), ("B", "3")]) ∧
    (buildEnv [("A", "1")] (some "no-equals-line") = [("A", "1")]) := by
  refine ⟨rfl, ?_, ?_, ?_, ?_, by decide, by decide⟩
  · intro h
    simp [applyEnvLine, h]
  · intro cs h
    simp [applyEnvLine, h]
  · intro h
    rcases hd : (pyStrip line).data with _ | ⟨c, cs⟩
    · simp [applyEnvLine, hd]
    · rw [hd] at h
      by_cases hc : c = '#' <;> simp [applyEnvLine, hd, hc, h]
  · intro h hk hh
    have hs := splitFirstAux_of_append '=' k v hk
    have happ : applyEnvLine env line =
        setKV env (String.mk (pyStripList k)) (String.mk (pyStripList v)) := by
      unfold applyEnvLine
      rw [h]
      rcases k with _ | ⟨c, k'⟩
      · simp [splitFirstAux]
      · have hc : ¬ c = '#' := by
          intro hc
          exact hh (by simp [hc])
        simpa [hc] using by rw [List.cons_append] at hs; simp [hs]
    exact ⟨happ, by rw [happ]; exact lookupKV_setKV_self env _ _⟩

/-- Witness for C4 at concrete inputs: a blank line, a comment line, a line
without `=`, and an overriding `K=V` line. -/
theorem claim_C4_witness :
    applyEnvLine [("A", "1")] "   " = [("A", "1")] ∧
    applyEnvLine [("A", "1")] "# note" = [("A", "1")] ∧
    applyEnvLine [("A", "1")] "garbage" = [("A", "1")] ∧
    lookupKV (applyEnvLine [("A", "1")] " A = 2 ") "A" = some "2" := by
  refine ⟨?_, ?_, ?_, ?_⟩
  · exact (claim_C4_env_overlay_merge [] [("A", "1")] "   " [] []).2.1 (by decide)
  · exact (claim_C4_env_overlay_merge [] [("A", "1")] "# note" [] []).2.2.1
      " note".data (by decide)
  · exact (claim_C4_env_overlay_merge [] [("A", "1")] "garbage" [] []).2.2.2.1 (by decide)
  · have h := (claim_C4_env_overlay_merge [] [("A", "1")] " A = 2 " "A ".data " 2".data).2.2.2.2.1
      (by decide) (by decide) (by decide)
    have : String.mk (pyStripList "A ".data) = "A" := by decide
    have h2 := h.2
    rw [this] at h2
    have : String.mk (pyStripList " 2".data) = "2" := by decide
    rw [this] at h2
    exact h2

/-- C5: when a live entry already exists for the target, `execute_logic`
reports "already running", performs no spawn, and leaves the process table
and the file system unchanged. -/
theorem claim_C5_already_running_guard (base_url : String) (st : ProcTable) (fs : FS)
    (osEnv : List (String × String)) (tid : String) (childExits : Bool) (childOut : String)
    (h : aliveIn st tid = true) :
    execute_logic base_url st fs osEnv (some tid) childExits childOut =
      ⟨.alreadyRunning, st, fs, none⟩ := by
  simp [execute_logic, h]

/-- Witness for C5: a concrete table with a live entry for `a.py`. -/
theorem claim_C5_witness :
    execute_logic "http://localhost:8080" [("a.py", ⟨false, "scripts/a.py.log"⟩)] ⟨[]⟩ []
      (some "a.py") true "x" =
      ⟨.alreadyRunning, [("a.py", ⟨false, "scripts/a.py.log"⟩)], ⟨[]⟩, none⟩ :=
  claim_C5_already_running_guard "http://localhost:8080" [("a.py", ⟨false, "scripts/a.py.log"⟩)]
    ⟨[]⟩ [] "a.py" true "x" (by decide)

/-- C1 counterexample: starting `a.py` whose child has already exited when
the grace wait elapses reports Crashed with the log tail, but the target's
entry is NOT evicted from `running_processes` — the lookup still succeeds
afterwards, so the claim's "the target is absent from the live table" is
false at this input. -/
theorem claim_C1_counterexample :
    (execute_logic "http://localhost:8080" [] ⟨[]⟩ [] (some "a.py") true "boom").res =
      .crashed "boom" ∧
    lookupKV (execute_logic "http://localhost:8080" [] ⟨[]⟩ [] (some "a.py") true "boom").table
      "a.py" ≠ none := by
  decide

/-- C1 (amended): for a target without a live entry, when the spawned child
has already exited at the grace-wait poll, `execute_logic` reports Crashed
with the last 2000 characters of the log; the table entry is not removed but
its handle has exited, so a status check reports not-running. A child that
outlives the grace window is reported Running with the status-check URL
built from the target id, and status then reports running. -/
theorem claim_C1_crash_detection (base_url : String) (st : ProcTable) (fs : FS)
    (osEnv : List (String × String)) (tid : String) (childExits : Bool) (childOut : String)
    (h : aliveIn st tid = false) :
    (childExits = true →
        (execute_logic base_url st fs osEnv (some tid) childExits childOut).res =
          .crashed (lastChars 2000 childOut) ∧
        lookupKV (execute_logic base_url st fs osEnv (some tid) childExits childOut).table tid =
          some ⟨true, logPathOf tid⟩ ∧
        script_status
          (execute_logic base_url st fs osEnv (some tid) childExits childOut).table tid =
          false) ∧
    (childExits = false →
        (execute_logic base_url st fs osEnv (some tid) childExits childOut).res =
          .running (base_url ++ "/status?script=" ++ tid) ∧
        script_status
          (execute_logic base_url st fs osEnv (some tid) childExits childOut).table tid =
          true) := by
  constructor
  · intro hc
    subst hc
    have hl : lookupKV
        (execute_logic base_url st fs osEnv (some tid) true childOut).table tid =
        some ⟨true, logPathOf tid⟩ := by
      simp [execute_logic, h, lookupKV_setKV_self]
    refine ⟨?_, hl, ?_⟩
    · simp [execute_logic, h, readFile, writeFile, lookupKV_setKV_self]
    · simp [script_status, aliveIn, hl]
  · intro hc
    subst hc
    have hl : lookupKV
        (execute_logic base_url st fs osEnv (some tid) false childOut).table tid =
        some ⟨false, logPathOf tid⟩ := by
      simp [execute_logic, h, lookupKV_setKV_self]
    refine ⟨?_, ?_⟩
    · simp [execute_logic, h]
    · simp [script_status, aliveIn, hl]

/-- Witness for C1: from the empty table, a crashing child and a surviving
child, concretely. -/
theorem claim_C1_witness :
    (execute_logic "http://localhost:8080" [] ⟨[]⟩ [] (some "a.py") true "boom").res =
      .crashed (lastChars 2000 "boom") ∧
    script_status (execute_logic "http://localhost:8080" [] ⟨[]⟩ [] (some "a.py") true
      "boom").table "a.py" = false ∧
    (execute_logic "http://localhost:8080" [] ⟨[]⟩ [] (some "a.py") false "ok").res =
      .running "http://localhost:8080/status?script=a.py" := by
  refine ⟨?_, ?_, ?_⟩
  · exact ((claim_C1_crash_detection "http://localhost:8080" [] ⟨[]⟩ [] "a.py" true "boom"
      (by decide)).1 rfl).1
  · exact ((claim_C1_crash_detection "http://localhost:8080" [] ⟨[]⟩ [] "a.py" true "boom"
      (by decide)).1 rfl).2.2
  · exact ((claim_C1_crash_detection "http://localhost:8080" [] ⟨[]⟩ [] "a.py" false "ok"
      (by decide)).2 rfl).1

/-- C3 counterexample: stopping a live `a.py` reports Stopped, but the
target's entry is NOT evicted from `running_processes` — the lookup still
succeeds afterwards, contradicting the claim's "evicts the target's entry
from the live-process table". -/
theorem claim_C3_counterexample :
    (stop_logic [("a.py", ⟨false, "scripts/a.py.log"⟩)] "a.py").1 = .stopped ∧
    lookupKV (stop_logic [("a.py", ⟨false, "scripts/a.py.log"⟩)] "a.py").2 "a.py" ≠ none := by
  decide

/-- C3 (amended): stopping a target with a live entry sends the one
termination signal (delivery errors ignored), blocks until exit, reports
Stopped and leaves the entry in the table with an exited handle; stop on an
absent or already-stopped target is a no-op reporting AlreadyStopped. Stop
is idempotent: after any stop, status is false and a second stop is a no-op
that reports AlreadyStopped and never errors. -/
theorem claim_C3_stop_idempotent (st : ProcTable) (tid : String) :
    (aliveIn st tid = true →
        (stop_logic st tid).1 = .stopped ∧ lookupKV (stop_logic st tid).2 tid ≠ none) ∧
    (aliveIn st tid = false → stop_logic st tid = (.alreadyStopped, st)) ∧
    script_status (stop_logic st tid).2 tid = false ∧
    stop_logic (stop_logic st tid).2 tid = (.alreadyStopped, (stop_logic st tid).2) := by
  have hstop_dead : ∀ s : ProcTable, aliveIn s tid = false →
      stop_logic s tid = (.alreadyStopped, s) := by
    intro s hs
    simp [stop_logic, hs]
  have hstatus : script_status (stop_logic st tid).2 tid = false := by
    rcases hl : lookupKV st tid with _ | e
    · have h0 : aliveIn st tid = false := by simp [aliveIn, hl]
      rw [hstop_dead st h0]
      simpa [script_status] using h0
    · by_cases he : e.exited
      · have h0 : aliveIn st tid = false := by simp [aliveIn, hl, he]
        rw [hstop_dead st h0]
        simpa [script_status] using h0
      · have h0 : aliveIn st tid = true := by simp [aliveIn, hl, he]
        have he' : e.exited = false := by simpa using he
        simp [stop_logic, h0, hl, he', script_status, aliveIn, lookupKV_setKV_self]
  refine ⟨?_, hstop_dead st, hstatus, hstop_dead _ hstatus⟩
  intro h
  rcases hl : lookupKV st tid with _ | e
  · simp [aliveIn, hl] at h
  · simp [stop_logic, h, hl, lookupKV_setKV_self]

/-- Witness for C3: stopping a live entry, and stopping an absent target. -/
theorem claim_C3_witness :
    (stop_logic [("a.py", ⟨false, "scripts/a.py.log"⟩)] "a.py").1 = .stopped ∧
    stop_logic [] "b.py" = (.alreadyStopped, []) ∧
    script_status (stop_logic [("a.py", ⟨false, "scripts/a.py.log"⟩)] "a.py").2 "a.py" =
      false := by
  refine ⟨?_, ?_, ?_⟩
  · exact ((claim_C3_stop_idempotent [("a.py", ⟨false, "scripts/a.py.log"⟩)] "a.py").1
      (by decide)).1
  · exact (claim_C3_stop_idempotent [] "b.py").2.1 (by decide)
  · exact (claim_C3_stop_idempotent [("a.py", ⟨false, "scripts/a.py.log"⟩)] "a.py").2.2.1

/-- C7 counterexample: after a first run of `a.py` crashes leaving
"first run output" in its log, a second start opens the log with mode "w"
and truncates it — afterwards the log holds only the second run's output,
so earlier content IS erased, contradicting the claim. -/
theorem claim_C7_counterexample :
    readFile (execute_logic "u"
        (execute_logic "u" [] ⟨[]⟩ [] (some "a.py") true "first run output").table
        (execute_logic "u" [] ⟨[]⟩ [] (some "a.py") true "first run output").fs
        [] (some "a.py") false "second").fs "scripts/a.py.log" = some "second" ∧
    readFile (execute_logic "u"
        (execute_logic "u" [] ⟨[]⟩ [] (some "a.py") true "first run output").table
        (execute_logic "u" [] ⟨[]⟩ [] (some "a.py") true "first run output").fs
        [] (some "a.py") false "second").fs "scripts/a.py.log" ≠
      some ("first run output" ++ "second") := by
  decide

/-- C7 (amended): `execute_logic` allocates one log file per target (named
from the target id) capturing the child's combined stdout and stderr, but
opens it with mode "w": after a start the log holds exactly the current
child's output, independent of any earlier content, and the table entry
records that per-target log path. -/
theorem claim_C7_log_truncation (base_url : String) (st : ProcTable) (fs : FS)
    (osEnv : List (String × String)) (tid : String) (childExits : Bool) (childOut : String)
    (h : aliveIn st tid = false) :
    readFile (execute_logic base_url st fs osEnv (some tid) childExits childOut).fs
      (logPathOf tid) = some childOut ∧
    lookupKV (execute_logic base_url st fs osEnv (some tid) childExits childOut).table tid =
      some ⟨childExits, logPathOf tid⟩ := by
  cases childExits <;>
    exact ⟨by simp [execute_logic, h, readFile, writeFile, lookupKV_setKV_self],
      by simp [execute_logic, h, lookupKV_setKV_self]⟩

/-- Witness for C7: a file system whose log for `a.py` already holds an
earlier run's output; after the start it holds exactly the new output. -/
theorem claim_C7_witness :
    readFile (execute_logic "u" [] ⟨[("scripts/a.py.log", "old content")]⟩ []
      (some "a.py") false "new output").fs "scripts/a.py.log" = some "new output" :=
  (claim_C7_log_truncation "u" [] ⟨[("scripts/a.py.log", "old content")]⟩ [] "a.py" false
    "new output" (by decide)).1

/-- C2 counterexample: repo-file selection overwrites another user's
ownership record. With `r|main.py` owned by user 1, user 2 (not the owner
and not the administrator — `select_git_file` never consults the
administrator id at all) selects that file and the record becomes user 2's:
the registry is mutated on behalf of a non-owner, non-administrator caller. -/
theorem claim_C2_counterexample :
    get_owner [("r|main.py", ⟨1, "repo"⟩)] "r|main.py" = some 1 ∧
    get_owner (select_git_file [("r|main.py", ⟨1, "repo"⟩)] "r" "main.py" 2).2 "r|main.py" =
      some 2 := by
  decide

/-- C2 (amended): in the upload flow, claiming an unset target sets the
record; when the artifact file already exists on disk, a caller who is
neither the (truthy) existing owner nor the administrator is rejected with a
conflict and no mutation; claiming by the current owner leaves the registry
unchanged. Repo-file selection, by contrast, claims the composite key
unconditionally, overwriting any existing record. -/
theorem claim_C2_claim_semantics (reg : Reg) (fs : FS) (d : Bool) (fname bytes : String)
    (uid admin u2 : Nat) (rn fn : String) :
    (endsWithStr fname ".py" = true → get_owner reg fname = none →
        (receive_py reg fs d fname bytes uid admin).next = .waitExtras ∧
        get_owner (receive_py reg fs d fname bytes uid admin).reg fname = some uid) ∧
    (endsWithStr fname ".py" = true → ∀ w, get_owner reg fname = some w → w ≠ 0 → w ≠ uid →
        uid ≠ admin →
        receive_py reg fs true fname bytes uid admin = ⟨.waitPy, reg, fs, [.takenByOther]⟩) ∧
    (endsWithStr fname ".py" = true → lookupKV reg fname = some ⟨uid, "file"⟩ →
        (receive_py reg fs d fname bytes uid admin).reg = reg ∧
        (receive_py reg fs d fname bytes uid admin).next = .waitExtras) ∧
    get_owner (select_git_file reg rn fn u2).2 (rn ++ "|" ++ fn) = some u2 := by
  refine ⟨?_, ?_, ?_, ?_⟩
  · intro he ho
    have hl : lookupKV reg fname = none := by
      rcases hx : lookupKV reg fname with _ | a
      · rfl
      · simp [get_owner, hx] at ho
    simp [receive_py, he, hl, ownerTruthy, get_owner, save_ownership, lookupKV_setKV_self]
  · intro he w how hw0 hwu hua
    simp [receive_py, he, how, ownerTruthy, hw0, hwu, hua]
  · intro he hl
    have how : get_owner reg fname = some uid := by simp [get_owner, hl]
    constructor
    · simp [receive_py, he, how, save_ownership]
      exact setKV_self reg fname ⟨uid, "file"⟩ hl
    · simp [receive_py, he, how]
  · simp [select_git_file, save_ownership, get_owner, lookupKV_setKV_self]

/-- Witness for C2: a fresh claim, a blocked conflicting claim, an
idempotent re-claim by the owner, and the unconditional repo-selection
claim, at concrete inputs. -/
theorem claim_C2_witness :
    get_owner (receive_py [] ⟨[]⟩ false "a.py" "print(1)" 7 99).reg "a.py" = some 7 ∧
    receive_py [("a.py", ⟨7, "file"⟩)] ⟨[]⟩ true "a.py" "print(1)" 8 99 =
      ⟨.waitPy, [("a.py", ⟨7, "file"⟩)], ⟨[]⟩, [.takenByOther]⟩ ∧
    (receive_py [("a.py", ⟨7, "file"⟩)] ⟨[]⟩ true "a.py" "print(1)" 7 99).reg =
      [("a.py", ⟨7, "file"⟩)] ∧
    get_owner (select_git_file [] "r" "main.py" 2).2 "r|main.py" = some 2 := by
  refine ⟨?_, ?_, ?_, ?_⟩
  · exact ((claim_C2_claim_semantics [] ⟨[]⟩ false "a.py" "print(1)" 7 99 0 "" "").1
      (by decide) (by decide)).2
  · exact (claim_C2_claim_semantics [("a.py", ⟨7, "file"⟩)] ⟨[]⟩ true "a.py" "print(1)" 8 99
      0 "" "").2.1 (by decide) 7 (by decide) (by decide) (by decide) (by decide)
  · exact ((claim_C2_claim_semantics [("a.py", ⟨7, "file"⟩)] ⟨[]⟩ true "a.py" "print(1)" 7 99
      0 "" "").2.2.1 (by decide) (by decide)).1
  · exact (claim_C2_claim_semantics [] ⟨[]⟩ false "x" "y" 0 0 2 "r" "main.py").2.2.2

/-- C6 counterexample: the claim's example input `"install requests flask\nnumpy==1.2"`
is NOT normalized — the directive keyword the code recognises is
`"pip install"`, not `"install"`, so the first line is kept verbatim. -/
theorem claim_C6_counterexample :
    smartFixLines (splitLines "install requests flask\nnumpy==1.2") =
      ["install requests flask", "numpy==1.2"] ∧
    smartFixLines (splitLines "install requests flask\nnumpy==1.2") ≠
      ["requests", "flask", "numpy==1.2"] := by
  decide

/-- C6 (amended): normalization works line by line and independently (the
loop is a per-line flat map); a non-blank line that does not begin
(case-insensitively) with the directive keyword `"pip install"` is kept
(stripped) unchanged; and the directive-form input
`"pip install requests flask\nnumpy==1.2"` yields the independent entries
`["requests", "flask", "numpy==1.2"]`. -/
theorem claim_C6_manifest_normalization (lines : List String) (line : String) :
    smartFixLines lines = (lines.map fixLine).flatten ∧
    (pyStrip line ≠ "" →
        startsWithL "pip install".data (lowerL (pyStrip line).data) = false →
        fixLine line = [pyStrip line]) ∧
    smartFixLines (splitLines "pip install requests flask\nnumpy==1.2") =
      ["requests", "flask", "numpy==1.2"] := by
  refine ⟨?_, ?_, by decide⟩
  · simpa using foldl_append_eq_flatten fixLine lines []
  · intro h1 h2
    rcases hl : pyStripList line.data with _ | ⟨c, cs⟩
    · exact absurd (by simp [pyStrip, hl]) h1
    · rw [pyStrip, hl] at h2 ⊢
      simp only [fixLine, hl]
      simp [h2]

/-- Witness for C6: the flat-map shape and the kept-unchanged rule at
concrete inputs. -/
theorem claim_C6_witness :
    smartFixLines ["a", "b"] = ([("a" : String), "b"].map fixLine).flatten ∧
    fixLine "  numpy==1.2  " = ["numpy==1.2"] := by
  constructor
  · exact (claim_C6_manifest_normalization ["a", "b"] "").1
  · have h := (claim_C6_manifest_normalization [] "  numpy==1.2  ").2.1 (by decide) (by decide)
    rw [h]
    decide

/-- C8 counterexample: in the extras sub-wait with a pending dependency-file
marker, uploading a wrongly-named file (`notes.pdf`) produces NO inline
validation message (only the neutral "Next?" prompt) and CLEARS the pending
marker instead of preserving it, so the claimed retry of the same upload is
impossible. -/
theorem claim_C8_counterexample :
    receive_extra_files (some .req) "file" "a.py" "scripts" ⟨[]⟩ "notes.pdf" "data" =
      ⟨.waitExtras, none, ⟨[]⟩, [.nextPrompt]⟩ ∧
    (receive_extra_files (some .req) "file" "a.py" "scripts" ⟨[]⟩ "notes.pdf" "data").wait ≠
      some .req ∧
    ((receive_extra_files (some .req) "file" "a.py" "scripts" ⟨[]⟩ "notes.pdf"
        "data").msgs.any isValidationMsg) = false := by
  decide

/-- C8 (amended): in the initial artifact wait, a wrong-extension upload
produces the inline validation message and leaves everything unchanged in
the same state, so the upload can be retried; in the one-shot extras
sub-wait, however, an upload matching neither expected extension is silently
dropped — no validation message — and the pending-extra-kind marker is
cleared, with the file system unchanged. -/
theorem claim_C8_upload_validation (reg : Reg) (fs : FS) (d : Bool) (fname bytes : String)
    (uid admin : Nat) (w : WaitKind) (type_ tid wd : String) :
    (endsWithStr fname ".py" = false →
        receive_py reg fs d fname bytes uid admin = ⟨.waitPy, reg, fs, [.onlyPyAllowed]⟩ ∧
        isValidationMsg .onlyPyAllowed = true) ∧
    (endsWithStr fname ".txt" = false → endsWithStr fname ".env" = false →
        receive_extra_files (some w) type_ tid wd fs fname bytes =
          ⟨.waitExtras, none, fs, [.nextPrompt]⟩ ∧
        isValidationMsg .nextPrompt = false) := by
  constructor
  · intro h
    simp [receive_py, h, isValidationMsg]
  · intro h1 h2
    cases w <;> simp [receive_extra_files, h1, h2, isValidationMsg]

/-- Witness for C8: a wrong-extension artifact upload and a wrong-extension
extras upload, at concrete inputs. -/
theorem claim_C8_witness :
    receive_py [] ⟨[]⟩ false "a.txt" "x" 7 99 = ⟨.waitPy, [], ⟨[]⟩, [.onlyPyAllowed]⟩ ∧
    receive_extra_files (some .env) "file" "a.py" "scripts" ⟨[]⟩ "b.jpg" "x" =
      ⟨.waitExtras, none, ⟨[]⟩, [.nextPrompt]⟩ := by
  constructor
  · exact ((claim_C8_upload_validation [] ⟨[]⟩ false "a.txt" "x" 7 99 .req "" "" "").1
      (by decide)).1
  · exact ((claim_C8_upload_validation [] ⟨[]⟩ false "b.jpg" "x" 7 99 .env "file" "a.py"
      "scripts").2 (by decide) (by decide)).1

/-- C9 counterexample: the deploy-link flow does not strip only a trailing
`".git"` — `str.replace(".git", "")` removes every occurrence. For the input
`"http://h/a.gitx.git"` the produced link encodes `"http://h/ax"`, not the
claimed `"http://h/a.gitx"`. -/
theorem claim_C9_counterexample :
    deploy_render_receive "http://h/a.gitx.git" =
      some ("https://render.com/deploy?repo=" ++ quote_plus "http://h/ax") ∧
    deploy_render_receive "http://h/a.gitx.git" ≠
      some ("https://render.com/deploy?repo=" ++ quote_plus "http://h/a.gitx") := by
  decide

/-- C9 (amended): text whose stripped form does not begin with `"http"` is
rejected and the flow stays in the same state; otherwise every occurrence of
`".git"` is removed from the URL, the result is percent-encoded with
`quote_plus` and substituted into the fixed deploy-link template — in
particular a single trailing `".git"` is stripped as the spec's example
expects. -/
theorem claim_C9_deploy_link (t : String) :
    (startsWithL "http".data (pyStrip t).data = false → deploy_render_receive t = none) ∧
    (startsWithL "http".data (pyStrip t).data = true →
        deploy_render_receive t =
          some ("https://render.com/deploy?repo=" ++
            quote_plus (pyStrip (String.mk (dropGitAll (pyStrip t).data))))) ∧
    deploy_render_receive "https://github.com/user/repo.git" =
      some "https://render.com/deploy?repo=https%3A%2F%2Fgithub.com%2Fuser%2Frepo" ∧
    deploy_render_receive "https://github.com/user/repo" =
      some "https://render.com/deploy?repo=https%3A%2F%2Fgithub.com%2Fuser%2Frepo" := by
  refine ⟨?_, ?_, by decide, by decide⟩
  · intro h
    simp [deploy_render_receive, h]
  · intro h
    simp [deploy_render_receive, h]

/-- Witness for C9: a rejected non-URL input and an accepted URL, applying
the general rules at concrete inputs. -/
theorem claim_C9_witness :
    deploy_render_receive "not a url" = none ∧
    deploy_render_receive "http://x" =
      some ("https://render.com/deploy?repo=" ++
        quote_plus (pyStrip (String.mk (dropGitAll (pyStrip "http://x").data)))) := by
  constructor
  · exact (claim_C9_deploy_link "not a url").1 (by decide)
  · exact (claim_C9_deploy_link "http://x").2.1 (by decide)

/-- C10: the dependency-install step persistently rewrites the manifest in
place before invoking the installer — after normalization the file holds
exactly the normalized entries joined by newlines, and the installer reads
that rewritten content; when the manifest cannot be read, normalization
silently returns failure without raising, nothing is written, and
installation proceeds against the unmodified file system. The concrete
example shows blank-line removal and directive expansion on disk. -/
theorem claim_C10_manifest_rewrite (fs : FS) (p content : String) :
    (readFile fs p = some content →
        smart_fix_requirements fs p =
          (true, writeFile fs p (joinNl (smartFixLines (splitLines content)))) ∧
        readFile (smart_fix_requirements fs p).2 p =
          some (joinNl (smartFixLines (splitLines content))) ∧
        (install_requirements fs p).2 = some (joinNl (smartFixLines (splitLines content)))) ∧
    (readFile fs p = none →
        smart_fix_requirements fs p = (false, fs) ∧
        install_requirements fs p = (fs, none)) ∧
    readFile (smart_fix_requirements ⟨[("r.txt", "pip install a b\n\nc==1")]⟩ "r.txt").2
      "r.txt" = some "a\nb\nc==1" := by
  refine ⟨?_, ?_, by decide⟩
  · intro h
    have h' : lookupKV fs.files p = some content := h
    refine ⟨?_, ?_, ?_⟩
    · simp [smart_fix_requirements, readFile, h']
    · simp [smart_fix_requirements, h', readFile, writeFile, lookupKV_setKV_self]
    · simp [install_requirements, smart_fix_requirements, h', readFile, writeFile,
        lookupKV_setKV_self]
  · intro h
    have h' : lookupKV fs.files p = none := h
    exact ⟨by simp [smart_fix_requirements, readFile, h'],
      by simp [install_requirements, smart_fix_requirements, readFile, h']⟩

/-- Witness for C10: a present manifest is rewritten to its normalized
entries; a missing manifest fails silently and mutates nothing. -/
theorem claim_C10_witness :
    readFile (smart_fix_requirements ⟨[("q.txt", "pip install x\n\ny==2")]⟩ "q.txt").2
      "q.txt" = some "x\ny==2" ∧
    smart_fix_requirements ⟨[]⟩ "missing.txt" = (false, ⟨[]⟩) := by
  constructor
  · have h := ((claim_C10_manifest_rewrite ⟨[("q.txt", "pip install x\n\ny==2")]⟩ "q.txt"
      "pip install x\n\ny==2").1 (by decide)).2.1
    rw [h]
    decide
  · exact ((claim_C10_manifest_rewrite ⟨[]⟩ "missing.txt" "").2.1 (by decide)).1

end GitPyHosting
